import Mathlib

set_option maxRecDepth 10000

/-
Verification of the key-resolution and bulk-delete logic of
src/src/persistence/azureBlobStorage.ts (class AzureBlobStorage).

The two pieces of original logic in that file are embedded here:
  - normalizePath / getFullKey (lines 372-388): string normalization of
    blob keys and the composition with the configured base path;
  - chunkArray / deleteBlobFolder / processDeleteBatch (lines 300-344,
    395-403): splice-based chunking and the bulk-delete driver.
Strings are modelled by Lean String (lists of characters underneath);
the backend (Azure SDK) is an explicit input: a response per submitted
batch for the bulk-delete driver, and a response per request for the
single-blob operations.
-/

/-- replace(/\\/g, "/"): every backslash becomes a forward slash. -/
def replaceBackslashes (l : List Char) : List Char :=
  l.map (fun c => if c = '\\' then '/' else c)

/-- startsWith("/") followed by substring(1): drop one leading slash. -/
def stripLeadingSlash (l : List Char) : List Char :=
  if l.head? = some '/' then l.tail else l

/-- endsWith("/") followed by slice(0, -1): drop one trailing slash. -/
def stripTrailingSlash (l : List Char) : List Char :=
  if l.getLast? = some '/' then l.dropLast else l

/-- replace of two-or-more consecutive slashes by a single slash, as the
regex with the global flag does: every maximal run of slashes in the
input becomes one slash. The Boolean records whether the previous
character was a slash whose run is already represented in the output. -/
def collapseAux : Bool → List Char → List Char
  | _, [] => []
  | prevSlash, c :: rest =>
    if c = '/' then
      if prevSlash then collapseAux true rest
      else '/' :: collapseAux true rest
    else c :: collapseAux false rest

/-- Collapse every run of consecutive slashes to a single slash. -/
def collapseSlashes (l : List Char) : List Char :=
  collapseAux false l

/-- normalizePath (azureBlobStorage.ts lines 372-384), in the order the
code applies the steps: replace backslashes, strip one leading slash,
strip one trailing slash, then collapse runs of slashes. -/
def normalizeList (l : List Char) : List Char :=
  collapseSlashes (stripTrailingSlash (stripLeadingSlash (replaceBackslashes l)))

/-- normalizePath on strings. -/
def normalizePath (s : String) : String :=
  ⟨normalizeList s.data⟩

/-- getFullKey (lines 386-388): the template literal
basePath ++ "/" ++ normalizePath blobKey, where basePath is the already
normalized base path field. -/
def getFullKey (basePath : String) (blobKey : String) : String :=
  basePath ++ "/" ++ normalizePath blobKey

/-- Key resolution as the caller sees it: the base path setting is
normalized once (initContainer, line 38) and every raw key goes through
getFullKey. -/
def resolve (basePathSetting : String) (rawKey : String) : String :=
  getFullKey (normalizePath basePathSetting) rawKey

/-- Observer: the string contains a backslash. -/
abbrev containsBackslash (s : String) : Prop :=
  '\\' ∈ s.data

/-- Observer: the character list contains two consecutive slashes. -/
def hasDoubleSlashAux : List Char → Bool
  | '/' :: '/' :: _ => true
  | _ :: rest => hasDoubleSlashAux rest
  | [] => false

/-- Observer: the string contains two consecutive slashes. -/
abbrev containsDoubleSlash (s : String) : Prop :=
  hasDoubleSlashAux s.data = true

/-- Observer: the string starts with a slash. -/
abbrev startsWithSlash (s : String) : Prop :=
  s.data.head? = some '/'

/-- Observer: the string ends with a slash. -/
abbrev endsWithSlash (s : String) : Prop :=
  s.data.getLast? = some '/'

example : resolve "" "a/b" = "/a/b" := by decide
example : resolve "base" "/a//b/" = "base/a/b" := by decide
example : resolve "" "//a//" = "//a/" := by decide
example : normalizePath "a\\b" = "a/b" := by decide

/- Characters of the normalized key all come from the input, and the
backslash replacement removes every backslash, so normalization can
never produce a backslash. -/

theorem mem_collapseAux {c : Char} (b : Bool) (l : List Char)
    (h : c ∈ collapseAux b l) : c ∈ l := by
  induction l generalizing b with
  | nil => simp [collapseAux] at h
  | cons c0 rest ih =>
    simp only [collapseAux] at h
    by_cases hc0 : c0 = '/'
    · subst hc0
      rw [if_pos rfl] at h
      cases b with
      | true => exact List.mem_cons_of_mem _ (ih _ h)
      | false =>
        rcases List.mem_cons.mp h with h1 | h2
        · exact h1 ▸ List.mem_cons_self _ _
        · exact List.mem_cons_of_mem _ (ih _ h2)
    · rw [if_neg hc0] at h
      rcases List.mem_cons.mp h with h1 | h2
      · exact h1 ▸ List.mem_cons_self _ _
      · exact List.mem_cons_of_mem _ (ih _ h2)

theorem mem_stripLeadingSlash {c : Char} (l : List Char)
    (h : c ∈ stripLeadingSlash l) : c ∈ l := by
  unfold stripLeadingSlash at h
  split at h
  · cases l with
    | nil => exact h
    | cons c0 rest => exact List.mem_cons_of_mem _ h
  · exact h

theorem mem_stripTrailingSlash {c : Char} (l : List Char)
    (h : c ∈ stripTrailingSlash l) : c ∈ l := by
  unfold stripTrailingSlash at h
  split at h
  · exact List.dropLast_sublist l |>.subset h
  · exact h

theorem replaceBackslashes_no_backslash (l : List Char) :
    '\\' ∉ replaceBackslashes l := by
  intro h
  rcases List.mem_map.mp h with ⟨a, _, ha⟩
  by_cases h1 : a = '\\'
  · rw [if_pos h1] at ha
    exact absurd ha (by decide)
  · rw [if_neg h1] at ha
    exact h1 ha

theorem normalizeList_no_backslash (l : List Char) : '\\' ∉ normalizeList l := by
  intro h
  exact replaceBackslashes_no_backslash l
    (mem_stripLeadingSlash _ (mem_stripTrailingSlash _ (mem_collapseAux _ _ h)))

/-- C1 (counterexample): with an empty base path and the raw key
"//a//", the resolved key is "//a/": it starts with a slash, contains a
run of two slashes, and ends with a slash, so the claimed invariant
fails on the code. normalizePath strips only one boundary slash and
collapses runs before the base path is glued on with a mandatory
slash, so boundary slashes survive into the resolved key. -/
theorem resolve_slash_invariant_counterexample :
    resolve "" "//a//" = "//a/" ∧
    startsWithSlash (resolve "" "//a//") ∧
    containsDoubleSlash (resolve "" "//a//") ∧
    endsWithSlash (resolve "" "//a//") := by
  decide

/-- C1 (amended): for every configured base path and every raw key, the
resolved storage key contains no backslash; the no-leading-slash,
no-double-slash and no-trailing-slash parts of the claim do not hold
(the resolver always inserts a slash between base path and key, and
normalizePath strips only a single boundary slash before collapsing
runs). -/
theorem resolve_no_backslash (b k : String) : ¬ containsBackslash (resolve b k) := by
  intro h
  simp only [containsBackslash, resolve, getFullKey, normalizePath,
    String.data_append] at h
  rcases List.mem_append.mp h with h1 | h2
  · rcases List.mem_append.mp h1 with h3 | h4
    · exact normalizeList_no_backslash _ h3
    · simp at h4
  · exact normalizeList_no_backslash _ h2

/-- C5 (counterexample): the specified equation resolve("", "a/b") =
"a/b" fails on the code: getFullKey always produces
basePath ++ "/" ++ normalizedKey, so with an empty base path the
result is "/a/b". -/
theorem resolve_empty_base_counterexample : resolve "" "a/b" ≠ "a/b" := by
  decide

/-- C5 (amended): resolve("", "a/b") = "/a/b" (a slash is always
inserted between the base path and the key, even when the base path is
empty); resolve("base", "/a//b/") = "base/a/b" as specified; resolve is
total over strings (it is a Lean function), and for empty base path and
empty raw key the output is "/", not the empty string. -/
theorem resolve_equations :
    resolve "" "a/b" = "/a/b" ∧
    resolve "base" "/a//b/" = "base/a/b" ∧
    resolve "" "" = "/" := by
  decide

/-
chunkArray (azureBlobStorage.ts lines 395-403):

    const results = [];
    while (srcArray.length) {
        results.push(srcArray.splice(0, chunkSize));
    }
    return results;

splice(0, chunkSize) removes the first min(max(chunkSize, 0), length)
elements of the array and returns them, so one loop iteration turns
srcArray into srcArray.drop(chunkSize.toNat) and pushes
srcArray.take(chunkSize.toNat). For chunkSize <= 0 on a non-empty array
the loop never terminates, so the loop is embedded with explicit fuel:
none means the iteration bound was exhausted before the loop finished.
The result pairs the returned chunk list with the final contents of
srcArray (the argument array is consumed destructively). -/
def chunkArrayFuel {α : Type} (chunkSize : Int) :
    Nat → List α → Option (List (List α) × List α)
  | _, [] => some ([], [])
  | 0, _ :: _ => none
  | fuel + 1, x :: xs =>
    match chunkArrayFuel chunkSize fuel ((x :: xs).drop chunkSize.toNat) with
    | some (chunks, final) => some ((x :: xs).take chunkSize.toNat :: chunks, final)
    | none => none

/-- The same loop restricted to a positive chunk size, where each
iteration removes at least one element, so the loop performs at most as
many iterations as the array has elements. The first argument of the
auxiliary function counts the remaining iterations and starts at the
length of the array; chunkArrayFuel_pos below proves that this
definition agrees with the fuelled loop. -/
def chunkArrayPosAux {α : Type} (chunkSize : Nat) : Nat → List α → List (List α)
  | _, [] => []
  | 0, _ :: _ => []
  | fuel + 1, x :: xs =>
    (x :: xs.take (chunkSize - 1)) ::
      chunkArrayPosAux chunkSize fuel (xs.drop (chunkSize - 1))

/-- chunkArray for a positive chunk size. -/
def chunkArrayPos {α : Type} (chunkSize : Nat) (l : List α) : List (List α) :=
  chunkArrayPosAux chunkSize l.length l

/-- Response of the backend to one submitted batch-delete call
(BlobBatchClient.submitBatch): either a result carrying
subResponsesFailedCount, or a rejection of the whole submission
(transport error). -/
inductive BatchResp : Type
  | ok (subResponsesFailedCount : Nat)
  | transportError (message : String)
deriving DecidableEq

instance exceptDecidableEq {ε σ : Type} [DecidableEq ε] [DecidableEq σ] :
    DecidableEq (Except ε σ) := fun a b =>
  match a, b with
  | .ok x, .ok y =>
    if h : x = y then .isTrue (congrArg Except.ok h)
    else .isFalse (fun hh => h (Except.ok.inj hh))
  | .ok _, .error _ => .isFalse (fun hh => Except.noConfusion hh)
  | .error _, .ok _ => .isFalse (fun hh => Except.noConfusion hh)
  | .error x, .error y =>
    if h : x = y then .isTrue (congrArg Except.error h)
    else .isFalse (fun hh => h (Except.error.inj hh))

/-- Observable outcome of one deleteBlobFolder call: the batches that
were submitted to the backend (each a list of blob clients), the
failure counts that were sent to the logger, and the value or error the
caller of deleteBlobFolder sees. The method is declared
Promise of void, so a successful run carries Unit. -/
structure FolderDeleteRun (α : Type) : Type where
  batches : List (List α)
  logged : List Nat
  result : Except String Unit
deriving DecidableEq

/-- processDeleteBatch (lines 332-344): submit the batch; on a result,
log the subResponsesFailedCount when it is non-zero and return
normally; on a rejected submission nothing is logged and the error
propagates. Returns the log entries and the outcome. -/
def processDeleteBatch (resp : BatchResp) : List Nat × Except String Unit :=
  match resp with
  | .ok n => (if n ≠ 0 then [n] else [], .ok ())
  | .transportError m => ([], .error m)

/-- deleteBlobFolder (lines 305-330). The blob listing returned by the
backend for the resolved prefix is the explicit input allBlobs, and the
backend is a map from the index of a submitted batch to its response.
The code branches on the number of blobs:
  - none: no batch is submitted and the call returns normally;
  - fewer than 256: one batch with every blob, awaited, its error
    caught and re-thrown wrapped in "Unable to delete blobs in ...";
  - 256 or more: the blobs are chunked into groups of 250 and each
    group is handed to an async closure by Array.prototype.map, which
    is never awaited: every group is submitted regardless of the others,
    a rejected submission becomes an unhandled rejection that the
    enclosing try/catch never sees, and the method returns normally
    while only the successfully submitted groups with non-zero failure
    counts reach the logger. -/
def deleteBlobFolder {α : Type} (allBlobs : List α) (backend : Nat → BatchResp)
    (folder : String) : FolderDeleteRun α :=
  if allBlobs.length = 0 then
    { batches := [], logged := [], result := .ok () }
  else if allBlobs.length < 256 then
    match processDeleteBatch (backend 0) with
    | (lg, .ok _) => { batches := [allBlobs], logged := lg, result := .ok () }
    | (lg, .error m) =>
      { batches := [allBlobs], logged := lg,
        result := .error ("Unable to delete blobs in " ++ folder ++ ". Error: " ++ m) }
  else
    { batches := chunkArrayPos 250 allBlobs,
      logged :=
        ((chunkArrayPos 250 allBlobs).enum.map
          (fun p => (processDeleteBatch (backend p.1)).1)).flatten,
      result := .ok () }

/- Structural lemmas about the chunking loop. chunkArrayPosAux removes
at least one element per iteration for every chunk size, so its value
does not depend on the iteration bound once the bound is at least the
length of the list. -/

theorem chunkArrayPosAux_fuel_irrel {α : Type} (chunkSize : Nat) (fuel1 : Nat) :
    ∀ (fuel2 : Nat) (l : List α), l.length ≤ fuel1 → l.length ≤ fuel2 →
      chunkArrayPosAux chunkSize fuel1 l = chunkArrayPosAux chunkSize fuel2 l := by
  induction fuel1 with
  | zero =>
    intro fuel2 l h1 _
    cases l with
    | nil => cases fuel2 <;> rfl
    | cons x xs => simp at h1
  | succ fuel1 ih =>
    intro fuel2 l h1 h2
    cases l with
    | nil => cases fuel2 <;> rfl
    | cons x xs =>
      cases fuel2 with
      | zero => simp at h2
      | succ fuel2 =>
        simp only [chunkArrayPosAux]
        rw [ih fuel2 (xs.drop (chunkSize - 1))]
        · calc (xs.drop (chunkSize - 1)).length ≤ xs.length := by
                simp [List.length_drop]
             _ ≤ fuel1 := by simpa using h1
        · calc (xs.drop (chunkSize - 1)).length ≤ xs.length := by
                simp [List.length_drop]
             _ ≤ fuel2 := by simpa using h2

theorem drop_length_le_of_cons_le {α : Type} {x : α} {xs : List α} {fuel n : Nat}
    (h : (x :: xs).length ≤ fuel + 1) : (xs.drop n).length ≤ fuel := by
  simp only [List.length_cons] at h
  simp only [List.length_drop]
  omega

theorem chunkArrayPos_cons {α : Type} (chunkSize : Nat) (x : α) (xs : List α) :
    chunkArrayPos chunkSize (x :: xs) =
      (x :: xs.take (chunkSize - 1)) :: chunkArrayPos chunkSize (xs.drop (chunkSize - 1)) := by
  show chunkArrayPosAux chunkSize (xs.length + 1) (x :: xs) = _
  simp only [chunkArrayPosAux]
  rw [chunkArrayPosAux_fuel_irrel chunkSize xs.length (xs.drop (chunkSize - 1)).length
    (xs.drop (chunkSize - 1)) (by simp [List.length_drop]) (le_refl _)]
  rfl

theorem chunkArrayPosAux_flatten {α : Type} (chunkSize : Nat) (fuel : Nat) :
    ∀ l : List α, l.length ≤ fuel →
      (chunkArrayPosAux chunkSize fuel l).flatten = l := by
  induction fuel with
  | zero =>
    intro l h
    cases l with
    | nil => rfl
    | cons x xs => simp at h
  | succ fuel ih =>
    intro l h
    cases l with
    | nil => rfl
    | cons x xs =>
      simp only [chunkArrayPosAux, List.flatten_cons]
      rw [ih (xs.drop (chunkSize - 1)) (drop_length_le_of_cons_le h)]
      simp [List.take_append_drop]

theorem chunkArrayPosAux_sizes {α : Type} (chunkSize : Nat) (fuel : Nat)
    (hc : 1 ≤ chunkSize) :
    ∀ l : List α, l.length ≤ fuel →
      ∀ ch ∈ chunkArrayPosAux chunkSize fuel l, ch ≠ [] ∧ ch.length ≤ chunkSize := by
  induction fuel with
  | zero =>
    intro l h ch hch
    cases l with
    | nil => simp [chunkArrayPosAux] at hch
    | cons x xs => simp at h
  | succ fuel ih =>
    intro l h ch hch
    cases l with
    | nil => simp [chunkArrayPosAux] at hch
    | cons x xs =>
      simp only [chunkArrayPosAux, List.mem_cons] at hch
      rcases hch with hch | hch
      · subst hch
        refine ⟨by simp, ?_⟩
        have := List.length_take_le (chunkSize - 1) xs
        simp only [List.length_cons]
        omega
      · exact ih (xs.drop (chunkSize - 1)) (drop_length_le_of_cons_le h) ch hch

theorem chunkArrayPosAux_eq_nil {α : Type} (chunkSize : Nat) (fuel : Nat)
    (l : List α) (h : l = []) : chunkArrayPosAux chunkSize fuel l = [] := by
  subst h
  cases fuel <;> rfl

theorem chunkArrayPosAux_dropLast {α : Type} (chunkSize : Nat) (fuel : Nat)
    (hc : 1 ≤ chunkSize) :
    ∀ l : List α, l.length ≤ fuel →
      ∀ ch ∈ (chunkArrayPosAux chunkSize fuel l).dropLast, ch.length = chunkSize := by
  induction fuel with
  | zero =>
    intro l h ch hch
    cases l with
    | nil => simp [chunkArrayPosAux] at hch
    | cons x xs => simp at h
  | succ fuel ih =>
    intro l h ch hch
    cases l with
    | nil => simp [chunkArrayPosAux] at hch
    | cons x xs =>
      simp only [chunkArrayPosAux] at hch
      rcases hrest : chunkArrayPosAux chunkSize fuel (xs.drop (chunkSize - 1)) with
        _ | ⟨r, rs⟩
      · rw [hrest] at hch
        simp at hch
      · rw [hrest] at hch
        rw [List.dropLast_cons₂] at hch
        rcases List.mem_cons.mp hch with hch | hch
        · subst hch
          have hne : xs.drop (chunkSize - 1) ≠ [] := by
            intro hnil
            rw [chunkArrayPosAux_eq_nil chunkSize fuel _ hnil] at hrest
            exact List.noConfusion hrest
          have hlen : chunkSize - 1 < xs.length := by
            by_contra hcon
            exact hne (List.drop_eq_nil_of_le (by omega))
          simp only [List.length_cons, List.length_take]
          omega
        · rw [← hrest] at hch
          exact ih (xs.drop (chunkSize - 1)) (drop_length_le_of_cons_le h) ch hch

/-- For a positive chunk size the splice loop terminates within
length-many iterations and consumes its argument: the fuelled loop
returns the chunkArrayPos chunks together with the emptied source
array. -/
theorem chunkArrayFuel_pos {α : Type} (chunkSize : Int) (hc : 1 ≤ chunkSize)
    (fuel : Nat) :
    ∀ l : List α, l.length ≤ fuel →
      chunkArrayFuel chunkSize fuel l = some (chunkArrayPos chunkSize.toNat l, []) := by
  induction fuel with
  | zero =>
    intro l h
    cases l with
    | nil => rfl
    | cons x xs => simp at h
  | succ fuel ih =>
    intro l h
    cases l with
    | nil => rfl
    | cons x xs =>
      have hk : ∃ m, chunkSize.toNat = m + 1 := ⟨chunkSize.toNat - 1, by omega⟩
      rcases hk with ⟨m, hm⟩
      simp only [chunkArrayFuel, hm]
      rw [List.drop_succ_cons, List.take_succ_cons]
      rw [ih (xs.drop m) (drop_length_le_of_cons_le h)]
      rw [chunkArrayPos_cons, hm]
      simp

example : chunkArrayPos 2 [1, 2, 3, 4, 5] = [[1, 2], [3, 4], [5]] := by decide
example : chunkArrayFuel 2 5 [1, 2, 3, 4, 5] = some ([[1, 2], [3, 4], [5]], []) := by
  decide
example : chunkArrayFuel 0 4 [1] = none := by decide
example :
    (deleteBlobFolder [1, 2] (fun _ => BatchResp.ok 1) "p").logged = [1] := by decide

/-- C10: chunkArray destructively consumes its argument. For every
array xs and chunk size n at least 1 the splice loop terminates within
length-many iterations, leaves the source array empty, and its chunks
concatenate back to xs, with every chunk of length exactly n.toNat
except possibly the last, which is non-empty and no longer than
n.toNat. -/
theorem chunkArray_consumes {α : Type} (xs : List α) (chunkSize : Int) (fuel : Nat)
    (hc : 1 ≤ chunkSize) (hfuel : xs.length ≤ fuel) :
    chunkArrayFuel chunkSize fuel xs = some (chunkArrayPos chunkSize.toNat xs, []) ∧
    (chunkArrayPos chunkSize.toNat xs).flatten = xs ∧
    (∀ ch ∈ (chunkArrayPos chunkSize.toNat xs).dropLast, ch.length = chunkSize.toNat) ∧
    (∀ ch ∈ chunkArrayPos chunkSize.toNat xs, ch ≠ [] ∧ ch.length ≤ chunkSize.toNat) := by
  have hk : 1 ≤ chunkSize.toNat := by omega
  exact ⟨chunkArrayFuel_pos chunkSize hc fuel xs hfuel,
    chunkArrayPosAux_flatten _ xs.length xs (le_refl _),
    chunkArrayPosAux_dropLast _ xs.length hk xs (le_refl _),
    chunkArrayPosAux_sizes _ xs.length hk xs (le_refl _)⟩

/-- C10 (witness): chunkArray_consumes evaluated at [1, 2, 3, 4, 5]
with chunk size 2 and iteration bound 5. -/
theorem chunkArray_consumes_witness :
    ((1 : Int) ≤ 2 ∧ ([1, 2, 3, 4, 5] : List Nat).length ≤ 5) ∧
    (chunkArrayFuel 2 5 ([1, 2, 3, 4, 5] : List Nat)
        = some (chunkArrayPos (Int.toNat 2) [1, 2, 3, 4, 5], []) ∧
      (chunkArrayPos (Int.toNat 2) ([1, 2, 3, 4, 5] : List Nat)).flatten
        = [1, 2, 3, 4, 5] ∧
      (∀ ch ∈ (chunkArrayPos (Int.toNat 2) ([1, 2, 3, 4, 5] : List Nat)).dropLast,
        ch.length = Int.toNat 2) ∧
      (∀ ch ∈ chunkArrayPos (Int.toNat 2) ([1, 2, 3, 4, 5] : List Nat),
        ch ≠ [] ∧ ch.length ≤ Int.toNat 2)) :=
  ⟨⟨by decide, by decide⟩, chunkArray_consumes [1, 2, 3, 4, 5] 2 5 (by decide) (by decide)⟩

/-- C7 (counterexample): chunkArray with chunk size 0 (or -1) on the
non-empty array [1] has made no progress after 500 iterations of the
splice loop: splice(0, 0) removes nothing, so the loop never
terminates, and in particular no ConfigurationError is raised - the
code contains no such validation. -/
theorem chunkArray_nonpositive_counterexample :
    chunkArrayFuel 0 500 [1] = none ∧ chunkArrayFuel (-1) 500 [1] = none := by
  decide

/-- C7 (amended): for every chunk size at most 0 and every non-empty
array, the chunkArray loop never terminates: for every iteration bound
the fuelled loop is still unfinished. No ConfigurationError (or any
other error) is raised, and deleteBlobFolder never reaches this case
since it always chunks with size 250. -/
theorem chunkArray_nonpositive_diverges {α : Type} (chunkSize : Int) (xs : List α)
    (fuel : Nat) (hc : chunkSize ≤ 0) (hxs : xs ≠ []) :
    chunkArrayFuel chunkSize fuel xs = none := by
  have hk : chunkSize.toNat = 0 := by omega
  induction fuel with
  | zero =>
    cases xs with
    | nil => exact absurd rfl hxs
    | cons x xs => rfl
  | succ fuel ih =>
    cases xs with
    | nil => exact absurd rfl hxs
    | cons x xs =>
      simp only [chunkArrayFuel, hk, List.drop_zero]
      rw [ih]

/-- C7 (witness): chunkArray_nonpositive_diverges evaluated at chunk
size -2, array [true] and iteration bound 7. -/
theorem chunkArray_nonpositive_diverges_witness :
    ((-2 : Int) ≤ 0 ∧ ([true] : List Bool) ≠ []) ∧
    chunkArrayFuel (-2) 7 [true] = none :=
  ⟨⟨by decide, by decide⟩,
    chunkArray_nonpositive_diverges (-2) [true] 7 (by decide) (by decide)⟩

/-- C2 (counterexample): deleteBlobFolder returns no BatchOutcome. Two
runs on the same two blobs, one where the backend reports 2 failed
sub-responses and one where it reports 0, give the caller the same
return value (the method is Promise of void and resolves with
undefined), while only the log distinguishes them. So the value
returned to the caller cannot contain totalFailed. -/
theorem deleteBlobFolder_no_outcome_counterexample :
    (deleteBlobFolder [1, 2] (fun _ => BatchResp.ok 2) "p").result
      = (deleteBlobFolder [1, 2] (fun _ => BatchResp.ok 0) "p").result ∧
    (deleteBlobFolder [1, 2] (fun _ => BatchResp.ok 2) "p").logged = [2] ∧
    (deleteBlobFolder [1, 2] (fun _ => BatchResp.ok 0) "p").logged = [] := by
  decide

/-- C2 (amended): deleteBlobFolder surfaces no BatchOutcome to its
caller; it returns void. The items of every submitted batch
concatenate to the full blob list (so the number requested is
determined by the submissions, not returned), and the per-item failure
counts reported by the backend reach only the logger: for each
submitted batch whose response carries a non-zero
subResponsesFailedCount, that count is logged, with no accumulation
across groups. -/
theorem deleteBlobFolder_void_outcome {α : Type} (xs : List α)
    (backend : Nat → BatchResp) (folder : String) :
    (deleteBlobFolder xs backend folder).batches.flatten = xs ∧
    (deleteBlobFolder xs backend folder).logged =
      ((List.range (deleteBlobFolder xs backend folder).batches.length).map
        (fun i => (processDeleteBatch (backend i)).1)).flatten := by
  unfold deleteBlobFolder
  by_cases h0 : xs.length = 0
  · rw [if_pos h0]
    rcases List.length_eq_zero.mp h0
    exact ⟨rfl, rfl⟩
  · rw [if_neg h0]
    by_cases h1 : xs.length < 256
    · rw [if_pos h1]
      rcases hp : processDeleteBatch (backend 0) with ⟨lg, res⟩
      cases res with
      | ok u => exact ⟨by simp, by simp [hp, List.range_succ]⟩
      | error m => exact ⟨by simp, by simp [hp, List.range_succ]⟩
    · rw [if_neg h1]
      refine ⟨chunkArrayPosAux_flatten 250 xs.length xs (le_refl _), ?_⟩
      show ((chunkArrayPos 250 xs).enum.map
          (fun p => (processDeleteBatch (backend p.1)).1)).flatten = _
      congr 1
      rw [show (fun (p : Nat × List α) => (processDeleteBatch (backend p.1)).1)
            = (fun i => (processDeleteBatch (backend i)).1) ∘ Prod.fst from rfl]
      rw [← List.map_map, List.enum_map_fst]

/-- C3 (counterexample): with 255 blobs, deleteBlobFolder does not
partition into groups of at most 250: the length check (< 256) sends
every list of up to 255 blobs into a single batch call, here of size
255, which exceeds the chunk size 250 used for larger lists. -/
theorem deleteBlobFolder_oversized_single_batch :
    (deleteBlobFolder (List.range 255) (fun _ => BatchResp.ok 0) "p").batches
      = [List.range 255] ∧
    ¬ (∀ ch ∈ (deleteBlobFolder (List.range 255) (fun _ => BatchResp.ok 0) "p").batches,
        ch.length ≤ 250) := by
  decide

/-- C3 (amended): for every non-empty blob list, either the list has
fewer than 256 items and deleteBlobFolder submits exactly one batch
containing all of them (possibly more than 250), or it has at least 256
items and the batches are the chunkArray partition with chunk size 250:
ordered, non-overlapping (their concatenation is the original list),
every batch before the last of size exactly 250, and every batch
non-empty with at most 250 items, one backend call per batch. -/
theorem deleteBlobFolder_partition {α : Type} (xs : List α)
    (backend : Nat → BatchResp) (folder : String) (h : xs ≠ []) :
    (xs.length < 256 ∧ (deleteBlobFolder xs backend folder).batches = [xs]) ∨
    (256 ≤ xs.length ∧
      (deleteBlobFolder xs backend folder).batches = chunkArrayPos 250 xs ∧
      (deleteBlobFolder xs backend folder).batches.flatten = xs ∧
      (∀ ch ∈ (deleteBlobFolder xs backend folder).batches.dropLast, ch.length = 250) ∧
      (∀ ch ∈ (deleteBlobFolder xs backend folder).batches,
        ch ≠ [] ∧ ch.length ≤ 250)) := by
  have h0 : ¬ xs.length = 0 := by
    intro hh
    exact h (List.length_eq_zero.mp hh)
  by_cases h1 : xs.length < 256
  · left
    refine ⟨h1, ?_⟩
    unfold deleteBlobFolder
    rw [if_neg h0, if_pos h1]
    rcases hp : processDeleteBatch (backend 0) with ⟨lg, res⟩
    cases res <;> rfl
  · right
    have hb : (deleteBlobFolder xs backend folder).batches = chunkArrayPos 250 xs := by
      unfold deleteBlobFolder
      rw [if_neg h0, if_neg h1]
    refine ⟨by omega, hb, ?_, ?_, ?_⟩
    · rw [hb]
      exact chunkArrayPosAux_flatten 250 xs.length xs (le_refl _)
    · rw [hb]
      exact chunkArrayPosAux_dropLast 250 xs.length (by omega) xs (le_refl _)
    · rw [hb]
      exact chunkArrayPosAux_sizes 250 xs.length (by omega) xs (le_refl _)

/-- C3 (witness): deleteBlobFolder_partition evaluated at a list of 300
blobs. -/
theorem deleteBlobFolder_partition_witness :
    ((List.range 300 : List Nat).length < 256 ∧
      (deleteBlobFolder (List.range 300) (fun _ => BatchResp.ok 0) "p").batches
        = [List.range 300]) ∨
    (256 ≤ (List.range 300 : List Nat).length ∧
      (deleteBlobFolder (List.range 300) (fun _ => BatchResp.ok 0) "p").batches
        = chunkArrayPos 250 (List.range 300) ∧
      (deleteBlobFolder (List.range 300) (fun _ => BatchResp.ok 0) "p").batches.flatten
        = List.range 300 ∧
      (∀ ch ∈ (deleteBlobFolder (List.range 300)
          (fun _ => BatchResp.ok 0) "p").batches.dropLast, ch.length = 250) ∧
      (∀ ch ∈ (deleteBlobFolder (List.range 300)
          (fun _ => BatchResp.ok 0) "p").batches, ch ≠ [] ∧ ch.length ≤ 250)) :=
  deleteBlobFolder_partition (List.range 300) (fun _ => BatchResp.ok 0) "p" (by decide)

/-- C4: with 300 blobs the code takes the chunked path and hands every
chunk to an unawaited async closure. With a backend whose first batch
submission is rejected with a transport error, both batches are still
submitted and deleteBlobFolder still resolves successfully: the error
does not propagate to the caller, no group is aborted, and the
submissions are concurrent rather than sequential. This contradicts the
claim; the enclosing try/catch and its wrapping re-throw show the code
intended submission errors to surface, so this is a defect of the
code. -/
theorem deleteBlobFolder_transport_error_not_propagated :
    (deleteBlobFolder (List.range 300)
      (fun i => if i = 0 then BatchResp.transportError "boom" else BatchResp.ok 0)
      "p").result = Except.ok () ∧
    (deleteBlobFolder (List.range 300)
      (fun i => if i = 0 then BatchResp.transportError "boom" else BatchResp.ok 0)
      "p").batches.length = 2 := by
  decide

/-- C6: with 300 blobs (and the hard-coded batch ceiling 250)
deleteBlobFolder issues exactly 2 batch calls, the first with 250 items
and the second with the remaining 50, and together they cover exactly
the 300 blobs in order. -/
theorem deleteBlobFolder_300_batches :
    (deleteBlobFolder (List.range 300) (fun _ => BatchResp.ok 0) "p").batches.length
      = 2 ∧
    ((deleteBlobFolder (List.range 300) (fun _ => BatchResp.ok 0) "p").batches.map
      List.length) = [250, 50] ∧
    (deleteBlobFolder (List.range 300) (fun _ => BatchResp.ok 0) "p").batches.flatten
      = List.range 300 := by
  decide

/-- C9 (counterexample): for the empty blob list deleteBlobFolder does
perform zero backend calls, but it does not return the outcome
{totalRequested: 0, totalFailed: 0}: the caller-visible result of the
empty run is the same void value as that of a run that requested one
deletion, so the returned value carries no totalRequested. -/
theorem deleteBlobFolder_empty_void_counterexample :
    (deleteBlobFolder ([] : List Nat) (fun _ => BatchResp.ok 0) "p").result
      = (deleteBlobFolder [7] (fun _ => BatchResp.ok 0) "p").result ∧
    (deleteBlobFolder ([] : List Nat) (fun _ => BatchResp.ok 0) "p").batches = [] ∧
    (deleteBlobFolder [7] (fun _ => BatchResp.ok 0) "p").batches = [[7]] := by
  decide

/-- C9 (amended): for the empty blob list and every backend,
deleteBlobFolder submits zero batches, logs nothing, and resolves with
void. -/
theorem deleteBlobFolder_empty_run {α : Type} (backend : Nat → BatchResp)
    (folder : String) :
    deleteBlobFolder ([] : List α) backend folder
      = { batches := [], logged := [], result := Except.ok () } := rfl

/-- A backend failure as the catch blocks of azureBlobStorage.ts see
it: an optional HTTP status code and a message. -/
structure BackendError : Type where
  statusCode : Option Nat
  message : String
deriving DecidableEq

/-- deleteBlob (lines 194-208): resolve the key, ask the backend to
delete that blob, swallow an error whose statusCode is 404 (the blob
was already deleted), re-raise anything else. The backend is a map from
the resolved key to the response of blockBlobClient.delete(). -/
def deleteBlob (basePath blobKey : String)
    (backendDelete : String → Except BackendError Unit) : Except BackendError Unit :=
  match backendDelete (getFullKey basePath blobKey) with
  | .ok _ => .ok ()
  | .error e => if e.statusCode = some 404 then .ok () else .error e

/-- getDownloadUrl (lines 153-188): resolve the key and compute a URL
for it (a SAS URL or the plain client URL, modelled as a backend map
from the resolved key to the response); an error with statusCode 404 is
turned into null, every other error is re-raised. -/
def getDownloadUrl (basePath blobKey : String)
    (backendUrl : String → Except BackendError String) :
    Except BackendError (Option String) :=
  match backendUrl (getFullKey basePath blobKey) with
  | .ok url => .ok (some url)
  | .error e => if e.statusCode = some 404 then .ok none else .error e

/-- C8: for every blob key whose backend operation fails with status
code 404, deleteBlob completes successfully (the missing-object error
is swallowed) and getDownloadUrl returns null instead of raising. -/
theorem notFound_swallowed (basePath blobKey : String)
    (backendDelete : String → Except BackendError Unit)
    (backendUrl : String → Except BackendError String) (e1 e2 : BackendError)
    (hdel : backendDelete (getFullKey basePath blobKey) = .error e1)
    (he1 : e1.statusCode = some 404)
    (hurl : backendUrl (getFullKey basePath blobKey) = .error e2)
    (he2 : e2.statusCode = some 404) :
    deleteBlob basePath blobKey backendDelete = .ok () ∧
    getDownloadUrl basePath blobKey backendUrl = .ok none := by
  unfold deleteBlob getDownloadUrl
  rw [hdel, hurl]
  simp [he1, he2]

/-- C8 (witness): notFound_swallowed evaluated for the key "a" with an
empty base path against a backend that reports the blob missing. -/
theorem notFound_swallowed_witness :
    deleteBlob "" "a"
        (fun _ => Except.error { statusCode := some 404, message := "NotFound" })
      = Except.ok () ∧
    getDownloadUrl "" "a"
        (fun _ => Except.error { statusCode := some 404, message := "NotFound" })
      = Except.ok none :=
  notFound_swallowed "" "a" _ _
    { statusCode := some 404, message := "NotFound" }
    { statusCode := some 404, message := "NotFound" } rfl rfl rfl rfl
